import Mathlib

/-!
# Verification of the page-shots capture engine and scheduler

A shallow embedding of the screenshot capture engine
(`src/full-page-screenshot.ts`), the per-job dispatcher
(`src/screenshot.ts`), and the element-hiding helper
(`src/lib/helpers.ts`) of the page-shots package, together with proofs
about the stabilization loop, the single-shot vs. stitched capture
decision, segment cropping and compositing, clip handling, error
propagation and the worker pool configuration.

Page heights are modelled as natural numbers (CSS pixels); device-pixel
quantities are the CSS quantity multiplied by the device pixel ratio.
The browser page is modelled by the sequence of `scrollHeight` values
the engine observes: one per stabilization-loop iteration, plus the
final settled height used by the post-loop measurements.
-/

namespace PageShots

/-! ## Image formats, selectors and descriptor data (`src/types.ts`) -/

/-- Output image formats supported by the tool (`ImageFormat` in the source:
`jpeg`, `png`, `webp`). -/
inductive ImageFormat where
  | png
  | jpeg
  | webp
deriving DecidableEq, Repr

/-- A clip rectangle (`Clip` in `src/types.ts`). -/
structure Clip where
  x : Nat
  y : Nat
  width : Nat
  height : Nat
deriving DecidableEq, Repr

/-- A CSS selector, abstracted by its observable behaviour in
`document.querySelectorAll`: an invalid selector makes the evaluated
script throw, a valid one matches `matchCount` elements (possibly 0). -/
structure Selector where
  valid : Bool
  matchCount : Nat
deriving DecidableEq, Repr

/-- The per-job descriptor (`UrlData` in `src/types.ts`), restricted to the
fields read by `getScreenshot` and `getFullPageScreenshot`. -/
structure UrlData where
  url : String
  width : Nat
  height : Nat
  deviceScaleFactor : Nat
  fullScreen : Bool
  clip : Option Clip
  delay : Nat
  scrollDelay : Nat
  stitchThreshold : Nat
  hideSelector : Option (List Selector)
  hideStitchSelector : Option (List Selector)
  fileType : ImageFormat
  quality : Nat
  path : String
deriving DecidableEq, Repr

/-! ## The stabilization loop (`getFullPageScreenshot`, loop at
`src/full-page-screenshot.ts:184-211`)

The loop scrolls, waits `url.scrollDelay`, measures the new
`scrollHeight`, counts consecutive iterations with unchanged height and
stops once that counter reaches 3 or after `maxScrollLoops` iterations. -/

/-- The mutable state of the stabilization loop: `lastHeight` and
`sameHeightCount` from the source, plus the number of iterations
performed so far (the loop index). -/
structure StabState where
  lastHeight : Nat
  sameHeightCount : Nat
  iterations : Nat
deriving DecidableEq, Repr

/-- Hard cap on scroll iterations (`maxScrollLoops` in the source). -/
def maxScrollLoops : Nat := 50

/-- One-for-one translation of the `for` loop body: measure
`heights s.iterations`, bump or reset `sameHeightCount`, break when the
counter reaches 3, otherwise update `lastHeight` and continue.  `fuel`
is the number of loop iterations still allowed. -/
def stabLoop (heights : Nat → Nat) : Nat → StabState → StabState
  | 0, s => s
  | fuel + 1, s =>
    let newHeight := heights s.iterations
    let cnt := if newHeight = s.lastHeight then s.sameHeightCount + 1 else 0
    if 3 ≤ cnt then
      { lastHeight := s.lastHeight, sameHeightCount := cnt,
        iterations := s.iterations + 1 }
    else
      stabLoop heights fuel
        { lastHeight := newHeight, sameHeightCount := cnt,
          iterations := s.iterations + 1 }

/-- Run the stabilization loop as `getFullPageScreenshot` does:
`lastHeight` starts at `pageSizeInfo.viewport.height` (the viewport
height in device pixels) and `sameHeightCount` starts at 0. -/
def runStabLoop (initialLastHeight : Nat) (heights : Nat → Nat) : StabState :=
  stabLoop heights maxScrollLoops
    { lastHeight := initialLastHeight, sameHeightCount := 0, iterations := 0 }

/-- Total settling time spent inside the loop: each iteration awaits
`url.scrollDelay` milliseconds once. -/
def stabSettleTime (initialLastHeight : Nat) (heights : Nat → Nat)
    (scrollDelay : Nat) : Nat :=
  (runStabLoop initialLastHeight heights).iterations * scrollDelay

/-! ## Page size info (`getPageSizeInfo`, `src/full-page-screenshot.ts:126-140`) -/

/-- `Math.ceil(a / b)` for natural `a` and positive natural `b`. -/
def jsCeilDiv (a b : Nat) : Nat := (a + b - 1) / b

/-- Result of `getPageSizeInfo`: number of viewport-sized pages, the
extra (non-full) height of the last page in device pixels, the raw page
height in CSS pixels, and the viewport in device pixels. -/
structure PageSizeInfo where
  pages : Nat
  extraHeight : Nat
  pageHeight : Nat
  viewportHeight : Nat
  viewportWidth : Nat
deriving DecidableEq, Repr

/-- Translation of `getPageSizeInfo`: `pages = ceil(pageHeight / innerHeight)`,
`extraHeight = (pageHeight % innerHeight) * devicePixelRatio`, and the
viewport scaled to device pixels. -/
def getPageSizeInfo (pageHeight innerHeight innerWidth dpr : Nat) : PageSizeInfo :=
  { pages := jsCeilDiv pageHeight innerHeight
    extraHeight := (pageHeight % innerHeight) * dpr
    pageHeight := pageHeight
    viewportHeight := innerHeight * dpr
    viewportWidth := innerWidth * dpr }

/-! ## Stitching (`stitchImages`, `src/full-page-screenshot.ts:33-93`) -/

/-- The `position` argument of the sharp `resize` call used to crop the
last segment (`position: 'bottom'` in the source). -/
inductive ResizePosition where
  | bottom
deriving DecidableEq, Repr

/-- A sharp `resize` operation applied to a segment raster. -/
structure ResizeOp where
  height : Nat
  width : Nat
  position : ResizePosition
deriving DecidableEq, Repr

/-- A segment raster after the map in `stitchImages`: its resulting
height and the resize (crop) that was applied to it, if any. -/
structure ProcessedImage where
  height : Nat
  resize : Option ResizeOp
deriving DecidableEq, Repr

/-- Processing of one segment buffer inside the `scrBuffers.map` of
`stitchImages`: the last buffer (index `numBuffers - 1`) is resized to
`extraHeight` anchored at the bottom when `extraHeight > 0`; every other
buffer keeps its raster height. -/
def processSegment (numBuffers width extraHeight idx segHeight : Nat) :
    ProcessedImage :=
  if idx = numBuffers - 1 ∧ 0 < extraHeight then
    { height := extraHeight,
      resize := some { height := extraHeight, width := width,
                       position := ResizePosition.bottom } }
  else
    { height := segHeight, resize := none }

/-- The list of processed segment rasters (`sharpImages` in the source),
given the raster heights of the captured segment buffers. -/
def sharpImages (segHeights : List Nat) (width extraHeight : Nat) :
    List ProcessedImage :=
  segHeights.mapIdx (processSegment segHeights.length width extraHeight)

/-- One entry of the sharp `composite` list: a segment placed at vertical
offset `top` and horizontal offset `left`. -/
structure CompositeEntry where
  top : Nat
  left : Nat
  height : Nat
deriving DecidableEq, Repr

/-- The `for (const img of sharpImages)` loop building the composite
list: each segment is placed at the running offset, which then advances
by that segment's height. -/
def compositeOffsets : List Nat → Nat → List CompositeEntry
  | [], _ => []
  | h :: rest, off => { top := off, left := 0, height := h } :: compositeOffsets rest (off + h)

/-- An RGBA colour (the `background` of the created canvas). -/
structure Rgba where
  r : Nat
  g : Nat
  b : Nat
  alpha : Nat
deriving DecidableEq, Repr

/-- The stitched output image: canvas width and total height, composite
entries, canvas background, and the encoding applied by the final
`.png()` call. -/
structure StitchedImage where
  width : Nat
  height : Nat
  composites : List CompositeEntry
  background : Rgba
  format : ImageFormat
deriving DecidableEq, Repr

/-- Translation of `stitchImages`: crop the last segment when
`extraHeight > 0`, sum the processed heights for the canvas height,
composite at cumulative offsets onto a white fully-transparent canvas,
and encode as PNG. -/
def stitchImages (segHeights : List Nat) (width extraHeight : Nat) :
    StitchedImage :=
  let imgs := sharpImages segHeights width extraHeight
  let heights := imgs.map (fun i => i.height)
  { width := width
    height := heights.sum
    composites := compositeOffsets heights 0
    background := { r := 255, g := 255, b := 255, alpha := 0 }
    format := ImageFormat.png }

/-! ## The browser page, as observed by the engine

`getFullPageScreenshot` only observes the page through `scrollHeight`
measurements and the viewport metrics, so the page is modelled by the
sequence of heights the stabilization loop reads plus the settled height
read by the two post-loop measurements (`getPageSizeInfo` at line 214
and `getPageHeight` at line 223). -/

/-- The page as seen by the capture engine. `loopHeights k` is the
`scrollHeight` measured during stabilization iteration `k`;
`finalHeight` is the `scrollHeight` after the loop has ended and the
page has been scrolled back to the top. -/
structure PageModel where
  loopHeights : Nat → Nat
  finalHeight : Nat
  innerHeight : Nat
  innerWidth : Nat
  dpr : Nat

/-- The final `pageSizeInfo = await getPageSizeInfo(page)` measured after
the stabilization loop (`src/full-page-screenshot.ts:214`). -/
def finalSizeInfo (page : PageModel) : PageSizeInfo :=
  getPageSizeInfo page.finalHeight page.innerHeight page.innerWidth page.dpr

/-! ## Screenshot configuration (`getScreenshot`, `src/screenshot.ts:104-115`) -/

/-- The puppeteer `ScreenshotOptions` fields set by `getScreenshot`. -/
structure ScreenshotOptions where
  fullPage : Bool
  path : Option String
  type : ImageFormat
  quality : Option Nat
  clip : Option Clip
deriving DecidableEq, Repr

/-- Translation of the configuration built in `getScreenshot`: `fullPage`
from `url.fullScreen`, `quality` only for jpeg/webp, and when a clip is
set, `fullPage` is forced to `false` and the clip is attached. -/
def buildScreenshotConfig (url : UrlData) : ScreenshotOptions :=
  let base : ScreenshotOptions :=
    { fullPage := url.fullScreen
      path := some url.path
      type := url.fileType
      quality :=
        if url.fileType = ImageFormat.jpeg ∨ url.fileType = ImageFormat.webp then
          some url.quality
        else none
      clip := none }
  match url.clip with
  | some c => { base with fullPage := false, clip := some c }
  | none => base

/-! ## The full-page engine's action trace
(`getFullPageScreenshot`, `src/full-page-screenshot.ts:222-264`) -/

/-- The externally visible operations the engine performs after the
capture-mode decision. -/
inductive EngineAction where
  | nativeCapture (config : ScreenshotOptions)
  | hideStitch (index : Nat) (selectors : List Selector)
  | segmentCapture (index : Nat)
  | writeFile (path : Option String)
deriving DecidableEq, Repr

/-- The body of segment iteration `index`: hide the post-first-scroll
selectors when `index > 0` and `url.hideStitchSelector` is an array,
then capture the current viewport.  (The 100 ms settle pause and the
trailing scroll carry no observable data and are omitted.) -/
def segmentIteration (url : UrlData) (index : Nat) : List EngineAction :=
  (if 0 < index then
    match url.hideStitchSelector with
    | some sels => [EngineAction.hideStitch index sels]
    | none => []
  else []) ++ [EngineAction.segmentCapture index]

/-- The `for (let index = 0; index < pageSizeInfo.pages; ...)` loop:
iterations `0 .. pages - 1` in order. -/
def segmentLoop (url : UrlData) : Nat → List EngineAction
  | 0 => []
  | p + 1 => segmentLoop url p ++ segmentIteration url p

/-- The capture-mode decision and its actions: measure the settled page
height, take one native full-page screenshot when it is at most
`url.stitchThreshold`, otherwise capture `pages` viewport segments and
write the stitched result to the path carried by the screenshot
configuration. -/
def getFullPageScreenshotActions (page : PageModel) (url : UrlData)
    (config : ScreenshotOptions) : List EngineAction :=
  if page.finalHeight ≤ url.stitchThreshold then
    [EngineAction.nativeCapture config]
  else
    segmentLoop url (finalSizeInfo page).pages ++
      [EngineAction.writeFile config.path]

/-- The raster heights of the captured segment buffers: each viewport
screenshot (with `captureBeyondViewport` off and no `fullPage`) rasters
the viewport at `innerHeight × devicePixelRatio` device pixels. -/
def capturedSegmentHeights (page : PageModel) (pages : Nat) : List Nat :=
  List.replicate pages (page.innerHeight * page.dpr)

/-- The stitched image produced on the segmented path:
`stitchImages(sectionScreenshots, pageSizeInfo.viewport.width,
pageSizeInfo.extraHeight)`. -/
def fullPageStitched (page : PageModel) : StitchedImage :=
  stitchImages (capturedSegmentHeights page (finalSizeInfo page).pages)
    (finalSizeInfo page).viewportWidth (finalSizeInfo page).extraHeight

/-! ## Element hiding (`hideElements`, `src/lib/helpers.ts:27-43`) -/

/-- `hideElements` evaluates `document.querySelectorAll(sel)` per
selector and sets `display: none` on each match.  A selector matching
nothing succeeds trivially; an invalid selector makes the evaluated
script throw, and `hideElements` has no internal error handling, so the
rejection propagates to its caller. -/
def hideElements (selectors : List Selector) : Except Unit Unit :=
  if selectors.all (fun s => s.valid) then Except.ok () else Except.error ()

/-! ## The per-job dispatcher (`getScreenshot`, `src/screenshot.ts:59-126`) -/

/-- The externally visible steps of one `getScreenshot` job. -/
inductive JobAction where
  | hideSelectors (selectors : List Selector)
  | fullPageEngine (throws : Bool) (actions : List EngineAction)
  | directScreenshot (config : ScreenshotOptions)
  | logSuccess (message : String)
  | logError (message : String)
deriving DecidableEq, Repr

/-- Whether the engine, or a screenshot call, throws during a job; the
page model itself is carried along. -/
structure PageBehavior where
  page : PageModel
  engineThrows : Bool
  directThrows : Bool

/-- The fixed message logged by `getFullPageScreenshot`'s catch block. -/
def fullPageErrorMessage : String := "Error while taking the full page screenshot"

/-- The fixed message logged by `getScreenshot`'s catch block. -/
def screenshotErrorMessage : String := "Error while taking the screenshot"

/-- The success message `getScreenshot` logs after the screenshot call
returns. -/
def savedMessage (url : UrlData) : String := "Saved " ++ url.path

/-- One invocation of `getFullPageScreenshot`.  Its entire body is
wrapped in `try { ... } catch (err) { logError(...) }`, so it always
returns normally: when an error is raised during stabilization, segment
capture or stitching, the error is logged with the fixed message and
swallowed. -/
def getFullPageScreenshotRun (pb : PageBehavior) (url : UrlData)
    (config : ScreenshotOptions) : List JobAction :=
  if pb.engineThrows then
    [JobAction.fullPageEngine true [], JobAction.logError fullPageErrorMessage]
  else
    [JobAction.fullPageEngine false (getFullPageScreenshotActions pb.page url config)]

/-- The `try { ... } catch` block of `getScreenshot` (lines 102-125):
build the screenshot configuration, dispatch to the full-page engine or
a direct `page.screenshot`, and log success; a throw from the direct
screenshot call is caught and logged. -/
def getScreenshotTryBlock (pb : PageBehavior) (url : UrlData) : List JobAction :=
  let config := buildScreenshotConfig url
  if config.fullPage then
    getFullPageScreenshotRun pb url config ++
      [JobAction.logSuccess (savedMessage url)]
  else
    if pb.directThrows then
      [JobAction.logError screenshotErrorMessage]
    else
      [JobAction.directScreenshot config,
        JobAction.logSuccess (savedMessage url)]

/-- One `getScreenshot` job (viewport/navigation/delay steps omitted as
they carry no data used by the claims).  The `hideElements` call for
`url.hideSelector` (lines 97-99) sits OUTSIDE the try block, so a throw
while hiding escapes `getScreenshot` (`Except.error`), reaching the
cluster's task boundary. -/
def getScreenshotRun (pb : PageBehavior) (url : UrlData) :
    Except Unit (List JobAction) :=
  match url.hideSelector with
  | some sels =>
    match hideElements sels with
    | Except.error _ => Except.error ()
    | Except.ok _ =>
      Except.ok (JobAction.hideSelectors sels :: getScreenshotTryBlock pb url)
  | none => Except.ok (getScreenshotTryBlock pb url)

/-- Whether a job trace reports success (`logSuccess` emitted). -/
def reportsSuccess (actions : List JobAction) : Bool :=
  actions.any (fun a =>
    match a with
    | JobAction.logSuccess _ => true
    | _ => false)

/-- Whether a job trace invoked the full-page engine (and hence its
stabilization loop). -/
def invokesFullPageEngine (actions : List JobAction) : Bool :=
  actions.any (fun a =>
    match a with
    | JobAction.fullPageEngine _ _ => true
    | _ => false)

/-- Whether a whole `getScreenshot` job invoked the full-page engine (a
job that threw before the dispatch never did). -/
def runInvokesEngine (pb : PageBehavior) (url : UrlData) : Bool :=
  match getScreenshotRun pb url with
  | Except.ok acts => invokesFullPageEngine acts
  | Except.error _ => false

/-! ## The worker pool (`Screenshot.init`, `src/screenshot.ts:152-181`) -/

/-- The caller options consulted by `Screenshot.init`.  The parsed
configuration (`ConfigParam` in `src/types.ts`) has no concurrency
field; the only option `init` reads is `blockAdsAndCookieNotices`. -/
structure InitOptions where
  blockAdsAndCookieNotices : Bool
deriving DecidableEq, Repr

/-- The cluster concurrency mode (`Cluster.CONCURRENCY_CONTEXT`). -/
inductive ConcurrencyMode where
  | context
deriving DecidableEq, Repr

/-- The options passed to `Cluster.launch`. -/
structure ClusterLaunchOptions where
  concurrency : ConcurrencyMode
  maxConcurrency : Nat
deriving DecidableEq, Repr

/-- Translation of the `Cluster.launch` call in `Screenshot.init`:
`CONCURRENCY_CONTEXT` with `maxConcurrency` hard-coded to 10, whatever
the caller options are. -/
def clusterLaunchOptions (_options : InitOptions) : ClusterLaunchOptions :=
  { concurrency := ConcurrencyMode.context, maxConcurrency := 10 }

/-- Modelled from the spec: the bounded worker pool of §4.2/§5 ("a fixed
pool of N independent execution contexts … each processing one job at a
time"; "at no point do more than maxConcurrency jobs execute
simultaneously").  The pool itself is implemented by the external
puppeteer-cluster library and is not part of src/.  The state counts
queued, running and completed jobs. -/
structure PoolState where
  maxConcurrency : Nat
  queued : Nat
  running : Nat
  done : Nat
deriving DecidableEq, Repr

/-- Modelled from the spec: the scheduler transitions — a caller submits
a job, the pool assigns a queued job to an idle worker only while fewer
than `maxConcurrency` jobs run, and a running job finishes. -/
inductive PoolStep : PoolState → PoolState → Prop where
  | submit (s : PoolState) :
      PoolStep s { s with queued := s.queued + 1 }
  | assign (s : PoolState) (hq : 0 < s.queued)
      (hr : s.running < s.maxConcurrency) :
      PoolStep s { s with queued := s.queued - 1, running := s.running + 1 }
  | finish (s : PoolState) (hr : 0 < s.running) :
      PoolStep s { s with running := s.running - 1, done := s.done + 1 }

/-- The pool right after launch: no jobs queued, running or done. -/
def initialPool (maxConcurrency : Nat) : PoolState :=
  { maxConcurrency := maxConcurrency, queued := 0, running := 0, done := 0 }

/-! ## Properties of the stabilization loop -/

/-- Unfolding equation for one loop iteration. -/
theorem stabLoop_succ (heights : Nat → Nat) (fuel : Nat) (s : StabState) :
    stabLoop heights (fuel + 1) s =
      if 3 ≤ (if heights s.iterations = s.lastHeight then s.sameHeightCount + 1 else 0) then
        { lastHeight := s.lastHeight,
          sameHeightCount :=
            (if heights s.iterations = s.lastHeight then s.sameHeightCount + 1 else 0),
          iterations := s.iterations + 1 }
      else
        stabLoop heights fuel
          { lastHeight := heights s.iterations,
            sameHeightCount :=
              (if heights s.iterations = s.lastHeight then s.sameHeightCount + 1 else 0),
            iterations := s.iterations + 1 } := rfl

/-- The loop performs at most `fuel` iterations. -/
theorem stabLoop_iterations_le (heights : Nat → Nat) :
    ∀ (fuel : Nat) (s : StabState),
      (stabLoop heights fuel s).iterations ≤ s.iterations + fuel := by
  intro fuel
  induction fuel with
  | zero => intro s; simp [stabLoop]
  | succ f ih =>
    intro s
    rw [stabLoop_succ]
    by_cases hbr : 3 ≤ (if heights s.iterations = s.lastHeight then s.sameHeightCount + 1 else 0)
    · rw [if_pos hbr]; simp
    · rw [if_neg hbr]
      refine le_trans (ih _) ?_
      simp; omega

/-- Once the measured heights are constant and `lastHeight` already equals
that constant, the loop stops after at most `3 - sameHeightCount` further
iterations (the counter climbs to 3 without interruptions). -/
theorem stabLoop_const_run (heights : Nat → Nat) (j : Nat)
    (hconst : ∀ k, j ≤ k → heights k = heights j) :
    ∀ (fuel : Nat) (s : StabState), s.lastHeight = heights j →
      j ≤ s.iterations → s.sameHeightCount < 3 →
      3 - s.sameHeightCount ≤ fuel →
      (stabLoop heights fuel s).iterations ≤ s.iterations + (3 - s.sameHeightCount) := by
  intro fuel
  induction fuel with
  | zero => intro s _ _ h3 hf; omega
  | succ f ih =>
    intro s hlast hj h3 hf
    have hnew : heights s.iterations = s.lastHeight := by
      rw [hlast]; exact hconst s.iterations hj
    rw [stabLoop_succ, if_pos hnew]
    by_cases hbr : 3 ≤ s.sameHeightCount + 1
    · rw [if_pos hbr]; simp; omega
    · rw [if_neg hbr]
      refine le_trans
        (ih { lastHeight := heights s.iterations,
              sameHeightCount := s.sameHeightCount + 1,
              iterations := s.iterations + 1 }
          (by simpa [hlast] using hconst s.iterations hj)
          (by simp; omega) (by simp; omega) (by simp; omega)) ?_
      simp; omega

/-- Early termination: if the measured heights are constant from
iteration `j` on, the loop stops within `max iterations j + 4`
iterations (one possible counter reset at `j`, then three unchanged
measurements). -/
theorem stabLoop_stable (heights : Nat → Nat) (j : Nat)
    (hconst : ∀ k, j ≤ k → heights k = heights j) :
    ∀ (fuel : Nat) (s : StabState), s.sameHeightCount < 3 →
      max s.iterations j + 4 ≤ s.iterations + fuel →
      (stabLoop heights fuel s).iterations ≤ max s.iterations j + 4 := by
  intro fuel
  induction fuel with
  | zero => intro s _ hf; omega
  | succ f ih =>
    intro s h3 hf
    by_cases hj : j ≤ s.iterations
    · have hmax : max s.iterations j = s.iterations := Nat.max_eq_left hj
      rw [hmax] at hf ⊢
      have hfuel : 3 ≤ f := by omega
      rw [stabLoop_succ]
      by_cases heq : heights s.iterations = s.lastHeight
      · rw [if_pos heq]
        by_cases hbr : 3 ≤ s.sameHeightCount + 1
        · rw [if_pos hbr]; simp
        · rw [if_neg hbr]
          refine le_trans
            (stabLoop_const_run heights j hconst f
              { lastHeight := heights s.iterations,
                sameHeightCount := s.sameHeightCount + 1,
                iterations := s.iterations + 1 }
              (hconst s.iterations hj) (by simp; omega) (by simp; omega)
              (by simp; omega)) ?_
          simp; omega
      · rw [if_neg heq, if_neg (by omega)]
        refine le_trans
          (stabLoop_const_run heights j hconst f
            { lastHeight := heights s.iterations,
              sameHeightCount := 0,
              iterations := s.iterations + 1 }
            (hconst s.iterations hj) (by simp; omega) (by simp) (by simp; omega)) ?_
        simp
    · push_neg at hj
      have hmax : max s.iterations j = j := Nat.max_eq_right (le_of_lt hj)
      rw [hmax] at hf ⊢
      rw [stabLoop_succ]
      by_cases hbr :
          3 ≤ (if heights s.iterations = s.lastHeight then s.sameHeightCount + 1 else 0)
      · rw [if_pos hbr]; simp; omega
      · rw [if_neg hbr]
        have hrec := ih
          { lastHeight := heights s.iterations,
            sameHeightCount :=
              (if heights s.iterations = s.lastHeight then s.sameHeightCount + 1 else 0),
            iterations := s.iterations + 1 }
          (by simpa using hbr)
        simp only [StabState.iterations] at hrec ⊢
        have hmax2 : max (s.iterations + 1) j = j := Nat.max_eq_right (by omega)
        rw [hmax2] at hrec
        exact hrec (by omega)

/-- The loop performs at least `min fuel 3` iterations when the counter
starts below 3: the counter climbs by at most one per iteration and the
loop only breaks once it reaches 3. -/
theorem stabLoop_iterations_ge (heights : Nat → Nat) :
    ∀ (fuel : Nat) (s : StabState),
      s.iterations + min fuel (3 - s.sameHeightCount) ≤
        (stabLoop heights fuel s).iterations := by
  intro fuel
  induction fuel with
  | zero => intro s; simp [stabLoop]
  | succ f ih =>
    intro s
    rw [stabLoop_succ]
    by_cases heq : heights s.iterations = s.lastHeight
    · rw [if_pos heq]
      by_cases hbr : 3 ≤ s.sameHeightCount + 1
      · rw [if_pos hbr]; simp; omega
      · rw [if_neg hbr]
        have hrec := ih
          { lastHeight := heights s.iterations,
            sameHeightCount := s.sameHeightCount + 1,
            iterations := s.iterations + 1 }
        simp only [StabState.iterations, StabState.sameHeightCount] at hrec ⊢
        omega
    · rw [if_neg heq, if_neg (by omega)]
      have hrec := ih
        { lastHeight := heights s.iterations,
          sameHeightCount := 0,
          iterations := s.iterations + 1 }
      simp only [StabState.iterations, StabState.sameHeightCount] at hrec ⊢
      omega

/-! ## Arithmetic of `jsCeilDiv` -/

/-- `jsCeilDiv` is a true ceiling: `a / b` rounded up. -/
theorem jsCeilDiv_eq (a b : Nat) (hb : 0 < b) :
    jsCeilDiv a b = a / b + (if a % b = 0 then 0 else 1) := by
  unfold jsCeilDiv
  by_cases h : a % b = 0
  · rw [if_pos h]
    obtain ⟨q, rfl⟩ : b ∣ a := Nat.dvd_of_mod_eq_zero h
    have h1 : b * q + b - 1 = b * q + (b - 1) := by omega
    rw [h1, Nat.mul_add_div hb, Nat.mul_div_cancel_left q hb,
      Nat.div_eq_of_lt (show b - 1 < b by omega)]
  · rw [if_neg h]
    have hrb : a % b < b := Nat.mod_lt a hb
    have hmod : b * (a / b) + a % b = a := Nat.div_add_mod a b
    have hexp : b * (a / b + 1) = b * (a / b) + b := Nat.mul_succ b (a / b)
    have key : a + b - 1 = b * (a / b + 1) + (a % b - 1) := by omega
    rw [key, Nat.mul_add_div hb,
      Nat.div_eq_of_lt (show a % b - 1 < b by omega)]

/-- A positive page height yields at least one segment. -/
theorem jsCeilDiv_pos (a b : Nat) (hb : 0 < b) (ha : 0 < a) :
    0 < jsCeilDiv a b := by
  rw [jsCeilDiv_eq a b hb]
  by_cases h : a % b = 0
  · have hdvd : b ∣ a := Nat.dvd_of_mod_eq_zero h
    have := Nat.le_of_dvd ha hdvd
    have := Nat.div_pos this hb
    omega
  · simp [h]

/-! ## List helpers for the stitching proofs -/

/-- `mapIdx` over a replicated list is a map over the index range. -/
theorem mapIdx_replicate {α β : Type} :
    ∀ (p : Nat) (f : Nat → α → β) (a : α),
      (List.replicate p a).mapIdx f = (List.range p).map (fun i => f i a) := by
  intro p
  induction p with
  | zero => intro f a; simp
  | succ n ih =>
    intro f a
    rw [List.replicate_succ, List.mapIdx_cons, List.range_succ_eq_map,
      List.map_cons, List.map_map, ih]
    simp [Function.comp]

/-- Summing a constant function over an index range. -/
theorem sum_range_map_const (g : Nat → Nat) (c : Nat) :
    ∀ p, (∀ i, i < p → g i = c) → ((List.range p).map g).sum = p * c := by
  intro p
  induction p with
  | zero => intro _; simp
  | succ n ih =>
    intro h
    rw [List.range_succ, List.map_append, List.sum_append,
      ih (fun i hi => h i (Nat.lt_trans hi (Nat.lt_succ_self n))),
      Nat.succ_mul]
    simp [h n (Nat.lt_succ_self n)]

/-- The last element of a map over a nonempty index range. -/
theorem getLast?_range_map {β : Type} (g : Nat → β) (p : Nat) (hp : 0 < p) :
    ((List.range p).map g).getLast? = some (g (p - 1)) := by
  obtain ⟨q, rfl⟩ : ∃ q, p = q + 1 := ⟨p - 1, by omega⟩
  rw [List.range_succ, List.map_append]
  simp

/-- The head of an append is the head of a nonempty left part. -/
theorem head?_append_some {β : Type} {l l2 : List β} {a : β}
    (h : l.head? = some a) : (l ++ l2).head? = some a := by
  cases l with
  | nil => simp at h
  | cons x xs => simpa using h

/-! ## Properties of `stitchImages` on captured segments -/

/-- Every processed segment keeps the viewport raster height, except the
last which is cropped to `extraHeight` when `extraHeight > 0`. -/
theorem sharpImages_replicate (p a w e : Nat) :
    sharpImages (List.replicate p a) w e =
      (List.range p).map (fun i => processSegment p w e i a) := by
  unfold sharpImages
  rw [List.length_replicate, mapIdx_replicate]

/-- With a positive crop amount, the last processed segment is resized to
exactly `extraHeight` pixels, anchored at the bottom of its raster. -/
theorem sharpImages_getLast?_crop (p a w e : Nat) (hp : 0 < p) (he : 0 < e) :
    (sharpImages (List.replicate p a) w e).getLast? =
      some { height := e,
             resize := some { height := e, width := w,
                              position := ResizePosition.bottom } } := by
  rw [sharpImages_replicate, getLast?_range_map _ p hp]
  simp [processSegment, he]

/-- The canvas height of the stitched image equals the page height in
device pixels: `(pages - 1)` full viewport rasters plus the cropped
remainder (or `pages` full rasters when the height is an exact
multiple). -/
theorem stitchImages_replicate_height (H vh dpr w : Nat) (hvh : 0 < vh) :
    (stitchImages (List.replicate (jsCeilDiv H vh) (vh * dpr)) w (H % vh * dpr)).height
      = H * dpr := by
  have himg : (stitchImages (List.replicate (jsCeilDiv H vh) (vh * dpr)) w
        (H % vh * dpr)).height
      = ((List.range (jsCeilDiv H vh)).map
          (fun i => (processSegment (jsCeilDiv H vh) w (H % vh * dpr) i
            (vh * dpr)).height)).sum := by
    simp only [stitchImages]
    rw [sharpImages_replicate, List.map_map]
    rfl
  rw [himg]
  by_cases he : H % vh * dpr = 0
  · have hall : ∀ i, i < jsCeilDiv H vh →
        (processSegment (jsCeilDiv H vh) w (H % vh * dpr) i (vh * dpr)).height
          = vh * dpr := by
      intro i _
      simp [processSegment, he]
    rw [sum_range_map_const _ _ _ hall]
    rcases Nat.mul_eq_zero.mp he with hmod | hdpr
    · have hdvd : vh ∣ H := Nat.dvd_of_mod_eq_zero hmod
      rw [jsCeilDiv_eq H vh hvh, if_pos hmod, Nat.add_zero, ← Nat.mul_assoc,
        Nat.div_mul_cancel hdvd]
    · rw [hdpr]; simp
  · have hmod : H % vh ≠ 0 := by
      intro h0; exact he (by rw [h0]; simp)
    have hq : jsCeilDiv H vh = H / vh + 1 := by
      rw [jsCeilDiv_eq H vh hvh, if_neg hmod]
    rw [hq, List.range_succ, List.map_append, List.sum_append]
    have hfirst : ((List.range (H / vh)).map
        (fun i => (processSegment (H / vh + 1) w (H % vh * dpr) i (vh * dpr)).height)).sum
        = (H / vh) * (vh * dpr) := by
      refine sum_range_map_const _ _ _ ?_
      intro i hi
      have hne : ¬ i = H / vh := by omega
      simp [processSegment, hne]
    have hlast : (processSegment (H / vh + 1) w (H % vh * dpr) (H / vh) (vh * dpr)).height
        = H % vh * dpr := by
      simp [processSegment, Nat.pos_of_ne_zero he]
    rw [hfirst]
    simp only [List.map_cons, List.map_nil, List.sum_cons, List.sum_nil]
    rw [hlast, ← Nat.mul_assoc, Nat.add_zero, ← Nat.add_mul, Nat.div_add_mod']

/-- The composite list places segments top-to-bottom at cumulative
vertical offsets, all at the left edge. -/
def cumulative : Nat → List CompositeEntry → Prop
  | _, [] => True
  | off, e :: rest => e.top = off ∧ e.left = 0 ∧ cumulative (off + e.height) rest

/-- `compositeOffsets` always produces a cumulative layout. -/
theorem cumulative_compositeOffsets :
    ∀ (l : List Nat) (off : Nat), cumulative off (compositeOffsets l off) := by
  intro l
  induction l with
  | nil => intro off; trivial
  | cons h t ih => intro off; exact ⟨rfl, rfl, ih (off + h)⟩

/-! ## Counting actions in the engine trace -/

/-- Number of native full-page `page.screenshot` calls in a trace. -/
def countNativeCaptures (actions : List EngineAction) : Nat :=
  actions.countP (fun a =>
    match a with
    | EngineAction.nativeCapture _ => true
    | _ => false)

/-- Number of segment `page.screenshot` calls in a trace. -/
def countSegmentCaptures (actions : List EngineAction) : Nat :=
  actions.countP (fun a =>
    match a with
    | EngineAction.segmentCapture _ => true
    | _ => false)

/-- Number of `hideElements(url.hideStitchSelector)` calls in a trace. -/
def countHideStitch (actions : List EngineAction) : Nat :=
  actions.countP (fun a =>
    match a with
    | EngineAction.hideStitch _ _ => true
    | _ => false)

/-- Each segment iteration captures exactly once and never natively. -/
theorem countSegmentCaptures_segmentLoop (url : UrlData) :
    ∀ p, countSegmentCaptures (segmentLoop url p) = p := by
  intro p
  induction p with
  | zero => simp [segmentLoop, countSegmentCaptures]
  | succ n ih =>
    show countSegmentCaptures (segmentLoop url n ++ segmentIteration url n) = n + 1
    unfold countSegmentCaptures at ih ⊢
    rw [List.countP_append, ih]
    cases hsel : url.hideStitchSelector with
    | none => cases n <;> simp [segmentIteration, hsel]
    | some sels => cases n <;> simp [segmentIteration, hsel]

/-- The segmented path performs no native full-page capture. -/
theorem countNativeCaptures_segmentLoop (url : UrlData) :
    ∀ p, countNativeCaptures (segmentLoop url p) = 0 := by
  intro p
  induction p with
  | zero => simp [segmentLoop, countNativeCaptures]
  | succ n ih =>
    show countNativeCaptures (segmentLoop url n ++ segmentIteration url n) = 0
    unfold countNativeCaptures at ih ⊢
    rw [List.countP_append, ih]
    cases hsel : url.hideStitchSelector with
    | none => cases n <;> simp [segmentIteration, hsel]
    | some sels => cases n <;> simp [segmentIteration, hsel]

/-- With post-first-scroll selectors configured, the hide call runs on
every segment with positive index: `p - 1` times over `p` segments. -/
theorem countHideStitch_segmentLoop (url : UrlData) (sels : List Selector)
    (hsel : url.hideStitchSelector = some sels) :
    ∀ p, countHideStitch (segmentLoop url p) = p - 1 := by
  intro p
  induction p with
  | zero => simp [segmentLoop, countHideStitch]
  | succ n ih =>
    show countHideStitch (segmentLoop url n ++ segmentIteration url n) = n + 1 - 1
    unfold countHideStitch at ih ⊢
    rw [List.countP_append, ih]
    cases n with
    | zero => simp [segmentIteration]
    | succ m => simp [segmentIteration, hsel]

/-- Without post-first-scroll selectors the hide call never runs. -/
theorem countHideStitch_segmentLoop_none (url : UrlData)
    (hsel : url.hideStitchSelector = none) :
    ∀ p, countHideStitch (segmentLoop url p) = 0 := by
  intro p
  induction p with
  | zero => simp [segmentLoop, countHideStitch]
  | succ n ih =>
    show countHideStitch (segmentLoop url n ++ segmentIteration url n) = 0
    unfold countHideStitch at ih ⊢
    rw [List.countP_append, ih]
    cases n <;> simp [segmentIteration, hsel]

/-- The first action of the segment loop is the index-0 capture: nothing
is hidden before the first segment's screenshot. -/
theorem segmentLoop_head? (url : UrlData) :
    ∀ p, 0 < p →
      (segmentLoop url p).head? = some (EngineAction.segmentCapture 0) := by
  intro p
  induction p with
  | zero => intro h; omega
  | succ n ih =>
    intro _
    show (segmentLoop url n ++ segmentIteration url n).head?
      = some (EngineAction.segmentCapture 0)
    cases Nat.eq_zero_or_pos n with
    | inl h0 =>
      subst h0
      simp [segmentLoop, segmentIteration]
    | inr hn => exact head?_append_some (ih hn)

/-- Every positive segment index gets a hide call when the selectors are
configured. -/
theorem hideStitch_mem_segmentLoop (url : UrlData) (sels : List Selector)
    (hsel : url.hideStitchSelector = some sels) :
    ∀ p k, 0 < k → k < p →
      EngineAction.hideStitch k sels ∈ segmentLoop url p := by
  intro p
  induction p with
  | zero => intro k _ hk; omega
  | succ n ih =>
    intro k hk0 hkn
    show EngineAction.hideStitch k sels ∈ segmentLoop url n ++ segmentIteration url n
    rcases Nat.lt_succ_iff_lt_or_eq.mp hkn with h | h
    · exact List.mem_append_left _ (ih k hk0 h)
    · subst h
      refine List.mem_append_right _ ?_
      simp [segmentIteration, hk0, hsel]

/-! ## Concrete sample data (used in witnesses and counterexamples) -/

/-- A fully-resolved sample descriptor: full-page capture, PNG output,
default stitch threshold 16000. -/
def sampleUrl : UrlData :=
  { url := "https://example.com/page"
    width := 1200
    height := 900
    deviceScaleFactor := 1
    fullScreen := true
    clip := none
    delay := 0
    scrollDelay := 400
    stitchThreshold := 16000
    hideSelector := none
    hideStitchSelector := none
    fileType := ImageFormat.png
    quality := 100
    path := "screenshots/example-com-page.png" }

/-- A page that has settled at 2500 CSS pixels with a 1200×900 viewport
at device pixel ratio 1 (the spec's worked example). -/
def samplePage : PageModel :=
  { loopHeights := fun _ => 2500
    finalHeight := 2500
    innerHeight := 900
    innerWidth := 1200
    dpr := 1 }

/-- A short page that has settled at 1500 CSS pixels. -/
def shortPage : PageModel :=
  { loopHeights := fun _ => 1500
    finalHeight := 1500
    innerHeight := 900
    innerWidth := 1200
    dpr := 1 }

/-- The sample page at device pixel ratio 2. -/
def retinaPage : PageModel :=
  { loopHeights := fun _ => 2500
    finalHeight := 2500
    innerHeight := 900
    innerWidth := 1200
    dpr := 2 }

/-- The sample descriptor with a stitch threshold of 1600, forcing the
segmented path on `samplePage`. -/
def urlStitch : UrlData := { sampleUrl with stitchThreshold := 1600 }

/-- The segmented-path descriptor requesting JPEG output. -/
def urlJpeg : UrlData :=
  { sampleUrl with stitchThreshold := 1600, fileType := ImageFormat.jpeg }

/-- The segmented-path descriptor with one post-first-scroll hide
selector. -/
def urlHideStitch : UrlData :=
  { sampleUrl with
    stitchThreshold := 1600
    hideStitchSelector := some [⟨true, 1⟩] }

/-- A descriptor with a clip rectangle and the full-page flag still on. -/
def urlClip : UrlData :=
  { sampleUrl with clip := some ⟨10, 20, 300, 400⟩ }

/-- A descriptor whose hide selector is invalid (querySelectorAll
throws). -/
def urlBadSelector : UrlData :=
  { sampleUrl with hideSelector := some [⟨false, 0⟩] }

/-- A descriptor with one valid hide selector that matches nothing. -/
def urlEmptySelector : UrlData :=
  { sampleUrl with hideSelector := some [⟨true, 0⟩] }

/-- A job on the sample page where nothing throws. -/
def pbOk : PageBehavior :=
  { page := samplePage, engineThrows := false, directThrows := false }

/-- A job on the sample page where the full-page engine body throws. -/
def pbEngineError : PageBehavior :=
  { page := samplePage, engineThrows := true, directThrows := false }

/-- Counting native captures distributes over append. -/
theorem countNativeCaptures_append (l1 l2 : List EngineAction) :
    countNativeCaptures (l1 ++ l2) = countNativeCaptures l1 + countNativeCaptures l2 :=
  List.countP_append _ _ _

/-- Counting segment captures distributes over append. -/
theorem countSegmentCaptures_append (l1 l2 : List EngineAction) :
    countSegmentCaptures (l1 ++ l2) = countSegmentCaptures l1 + countSegmentCaptures l2 :=
  List.countP_append _ _ _

/-- Counting hide calls distributes over append. -/
theorem countHideStitch_append (l1 l2 : List EngineAction) :
    countHideStitch (l1 ++ l2) = countHideStitch l1 + countHideStitch l2 :=
  List.countP_append _ _ _

/-! ## The claims -/

/-- Claim C1: after stabilization the settled document height `H` is
compared to the stitch threshold.  When `H ≤ stitchThreshold` the engine
performs exactly one native full-page capture call and no segmentation;
when `H > stitchThreshold` it performs no native capture and captures
exactly `ceil(H / viewportHeight)` segments. -/
theorem capture_mode_decision (page : PageModel) (url : UrlData)
    (config : ScreenshotOptions) (hvh : 0 < page.innerHeight) :
    (page.finalHeight ≤ url.stitchThreshold →
      getFullPageScreenshotActions page url config
          = [EngineAction.nativeCapture config] ∧
      countNativeCaptures (getFullPageScreenshotActions page url config) = 1 ∧
      countSegmentCaptures (getFullPageScreenshotActions page url config) = 0) ∧
    (url.stitchThreshold < page.finalHeight →
      countNativeCaptures (getFullPageScreenshotActions page url config) = 0 ∧
      countSegmentCaptures (getFullPageScreenshotActions page url config)
          = jsCeilDiv page.finalHeight page.innerHeight ∧
      jsCeilDiv page.finalHeight page.innerHeight
          = page.finalHeight / page.innerHeight
              + (if page.finalHeight % page.innerHeight = 0 then 0 else 1)) := by
  constructor
  · intro hle
    unfold getFullPageScreenshotActions
    rw [if_pos hle]
    exact ⟨rfl, rfl, rfl⟩
  · intro hgt
    unfold getFullPageScreenshotActions
    rw [if_neg (by omega)]
    refine ⟨?_, ?_, jsCeilDiv_eq _ _ hvh⟩
    · rw [countNativeCaptures_append, countNativeCaptures_segmentLoop]
      rfl
    · rw [countSegmentCaptures_append, countSegmentCaptures_segmentLoop]
      rfl

/-- Witness for C1 at the spec's worked examples: a 1500px page with
threshold 1600 gets one native capture; a 2500px page with threshold
1600 and a 900px viewport gets 3 segments. -/
theorem capture_mode_decision_witness :
    countNativeCaptures (getFullPageScreenshotActions shortPage urlStitch
        (buildScreenshotConfig urlStitch)) = 1 ∧
    countSegmentCaptures (getFullPageScreenshotActions samplePage urlStitch
        (buildScreenshotConfig urlStitch)) = 3 := by
  constructor
  · exact ((capture_mode_decision shortPage urlStitch
      (buildScreenshotConfig urlStitch) (by decide)).1 (by decide)).2.1
  · have h := ((capture_mode_decision samplePage urlStitch
      (buildScreenshotConfig urlStitch) (by decide)).2 (by decide)).2.1
    rw [h]
    decide

/-- Claim C2 (amended): the stabilization loop always stops within 50
iterations, even on a page that grows every iteration; the
consecutive-unchanged counter resets to zero whenever the measured
height changes; and once the measured height is constant from an
iteration `j` with `j + 4 < 50`, the loop stops within `j + 4`
iterations, strictly before the 50-iteration cap.  (When the three
unchanged measurements only complete at the 50th iteration, the loop
still stops via the counter but uses all 50 iterations — see the
counterexample to the original claim.) -/
theorem stabilization_loop_termination (v : Nat) (heights heightsStable : Nat → Nat)
    (j fuel : Nat) (s : StabState)
    (hconst : ∀ k, j ≤ k → heightsStable k = heightsStable j)
    (hj : j + 4 < 50) :
    (runStabLoop v heights).iterations ≤ 50 ∧
    (runStabLoop v heightsStable).iterations ≤ j + 4 ∧
    (runStabLoop v heightsStable).iterations < 50 ∧
    (heights s.iterations ≠ s.lastHeight →
      stabLoop heights (fuel + 1) s =
        stabLoop heights fuel
          { lastHeight := heights s.iterations, sameHeightCount := 0,
            iterations := s.iterations + 1 }) := by
  have h50 := stabLoop_iterations_le heights maxScrollLoops
    { lastHeight := v, sameHeightCount := 0, iterations := 0 }
  have hstab := stabLoop_stable heightsStable j hconst maxScrollLoops
    { lastHeight := v, sameHeightCount := 0, iterations := 0 }
    (by simp) (by simp [maxScrollLoops]; omega)
  simp only [StabState.iterations, Nat.zero_add, Nat.zero_max] at h50 hstab
  refine ⟨?_, ?_, ?_, ?_⟩
  · exact h50
  · exact le_trans hstab (by omega)
  · exact lt_of_le_of_lt (le_trans hstab (by omega)) hj
  · intro hne
    rw [stabLoop_succ, if_neg hne, if_neg (show ¬ (3:Nat) ≤ 0 by omega)]

/-- Witness for C2: a strictly growing page still stops within the cap,
and a page constant at 500px from the start stops within 4 iterations;
the counter resets when the first measurement (500) differs from the
initial `lastHeight` (900, the viewport height in device pixels). -/
theorem stabilization_loop_termination_witness :
    (runStabLoop 900 (fun k => 900 + k)).iterations ≤ 50 ∧
    (runStabLoop 900 (fun _ => 500)).iterations ≤ 4 ∧
    (runStabLoop 900 (fun _ => 500)).iterations < 50 ∧
    ((900:Nat) ≠ 1000 →
      stabLoop (fun k => 900 + k) 50
          { lastHeight := 1000, sameHeightCount := 0, iterations := 0 } =
        stabLoop (fun k => 900 + k) 49
          { lastHeight := 900, sameHeightCount := 0, iterations := 1 }) :=
  stabilization_loop_termination 900 (fun k => 900 + k) (fun _ => 500) 0 49
    { lastHeight := 1000, sameHeightCount := 0, iterations := 0 }
    (fun _ _ => rfl) (by decide)

/-- A height trace that changes on every iteration until iteration 46
and is constant afterwards: the first three consecutive unchanged
measurements are at iterations 47, 48 and 49. -/
def heightsBoundary : Nat → Nat := fun k => min k 46

/-- Counterexample to C2 as stated: on `heightsBoundary` the measured
height is unchanged for 3 consecutive iterations (47, 48, 49) and the
loop does exit via the stability counter (it ends with
`sameHeightCount = 3`), yet it performs the full 50 iterations — not
fewer than 50. -/
theorem stabilization_before_cap_counterexample :
    heightsBoundary 47 = heightsBoundary 46 ∧
    heightsBoundary 48 = heightsBoundary 47 ∧
    heightsBoundary 49 = heightsBoundary 48 ∧
    (runStabLoop 1000 heightsBoundary).sameHeightCount = 3 ∧
    (runStabLoop 1000 heightsBoundary).iterations = 50 := by
  decide

/-- Claim C10: the loop can only break once the consecutive-unchanged
counter, which starts at 0 and grows by at most one per iteration,
reaches 3 — so every full-page capture performs at least 3
scroll-and-measure iterations, and hence waits at least
`3 × scrollDelay` milliseconds of settling, even on a page whose height
never changes. -/
theorem minimum_scroll_iterations (v scrollDelay : Nat) (heights : Nat → Nat) :
    3 ≤ (runStabLoop v heights).iterations ∧
    3 * scrollDelay ≤ stabSettleTime v heights scrollDelay := by
  have h := stabLoop_iterations_ge heights maxScrollLoops
    { lastHeight := v, sameHeightCount := 0, iterations := 0 }
  simp only [StabState.iterations, StabState.sameHeightCount] at h
  have h3 : 3 ≤ (runStabLoop v heights).iterations := by
    unfold runStabLoop
    unfold maxScrollLoops at h ⊢
    omega
  exact ⟨h3, Nat.mul_le_mul_right _ h3⟩

/-- Claim C3: for every segmented capture, `extraHeight` equals
`(H mod viewportHeight) × devicePixelRatio` (zero when the height is an
exact multiple of the viewport); when positive, the last segment is
resized to exactly `extraHeight` pixels anchored at the bottom of its
raster, contributing exactly `extraHeight` to the canvas; and the total
composited canvas height equals `H × devicePixelRatio`. -/
theorem segmented_crop_and_total (page : PageModel) (url : UrlData)
    (hvh : 0 < page.innerHeight) (hseg : url.stitchThreshold < page.finalHeight) :
    (finalSizeInfo page).extraHeight
        = page.finalHeight % page.innerHeight * page.dpr ∧
    (page.innerHeight ∣ page.finalHeight → (finalSizeInfo page).extraHeight = 0) ∧
    (0 < (finalSizeInfo page).extraHeight →
      (sharpImages (capturedSegmentHeights page (finalSizeInfo page).pages)
          (finalSizeInfo page).viewportWidth (finalSizeInfo page).extraHeight).getLast?
        = some ⟨(finalSizeInfo page).extraHeight,
            some ⟨(finalSizeInfo page).extraHeight, (finalSizeInfo page).viewportWidth,
              ResizePosition.bottom⟩⟩) ∧
    (fullPageStitched page).height = page.finalHeight * page.dpr := by
  refine ⟨rfl, ?_, ?_, ?_⟩
  · intro hdvd
    have hmod : page.finalHeight % page.innerHeight = 0 :=
      Nat.mod_eq_zero_of_dvd hdvd
    show page.finalHeight % page.innerHeight * page.dpr = 0
    rw [hmod, Nat.zero_mul]
  · intro hex
    have hex' : 0 < page.finalHeight % page.innerHeight * page.dpr := hex
    have hmodpos : 0 < page.finalHeight % page.innerHeight := by
      rcases Nat.eq_zero_or_pos (page.finalHeight % page.innerHeight) with h0 | h0
      · rw [h0, Nat.zero_mul] at hex'
        exact absurd hex' (Nat.lt_irrefl 0)
      · exact h0
    have hH : 0 < page.finalHeight := by
      rcases Nat.eq_zero_or_pos page.finalHeight with h0 | h0
      · rw [h0, Nat.zero_mod] at hmodpos
        exact absurd hmodpos (Nat.lt_irrefl 0)
      · exact h0
    have hp : 0 < (finalSizeInfo page).pages :=
      jsCeilDiv_pos page.finalHeight page.innerHeight hvh hH
    exact sharpImages_getLast?_crop _ _ _ _ hp hex
  · exact stitchImages_replicate_height page.finalHeight page.innerHeight
      page.dpr (page.innerWidth * page.dpr) hvh

/-- Witness for C3 at the spec's worked example with device pixel
ratio 2: a settled height of 2500 with a 900px viewport gives
`extraHeight = 700 × 2 = 1400`, a bottom-anchored last segment of height
1400, and a canvas of height 5000. -/
theorem segmented_crop_and_total_witness :
    (0:Nat) < 900 ∧ (1600:Nat) < 2500 ∧
    ((finalSizeInfo retinaPage).extraHeight
        = retinaPage.finalHeight % retinaPage.innerHeight * retinaPage.dpr ∧
      (retinaPage.innerHeight ∣ retinaPage.finalHeight →
        (finalSizeInfo retinaPage).extraHeight = 0) ∧
      (0 < (finalSizeInfo retinaPage).extraHeight →
        (sharpImages (capturedSegmentHeights retinaPage (finalSizeInfo retinaPage).pages)
            (finalSizeInfo retinaPage).viewportWidth
            (finalSizeInfo retinaPage).extraHeight).getLast?
          = some ⟨(finalSizeInfo retinaPage).extraHeight,
              some ⟨(finalSizeInfo retinaPage).extraHeight,
                (finalSizeInfo retinaPage).viewportWidth,
                ResizePosition.bottom⟩⟩) ∧
      (fullPageStitched retinaPage).height
          = retinaPage.finalHeight * retinaPage.dpr) :=
  ⟨by decide, by decide,
    segmented_crop_and_total retinaPage urlStitch (by decide) (by decide)⟩

/-- Claim C4: when a clip rectangle is set, the screenshot configuration
carries exactly that clip with full-page mode forced off (whatever
`fullScreen` says), the full-page engine — and hence its stabilization
loop — is never invoked, and in the error-free case the job performs one
direct viewport screenshot with that configuration. -/
theorem clip_forces_viewport_capture (pb : PageBehavior) (url : UrlData)
    (c : Clip) (hc : url.clip = some c) :
    (buildScreenshotConfig url).fullPage = false ∧
    (buildScreenshotConfig url).clip = some c ∧
    runInvokesEngine pb url = false ∧
    (pb.directThrows = false → url.hideSelector = none →
      getScreenshotRun pb url =
        Except.ok [JobAction.directScreenshot (buildScreenshotConfig url),
          JobAction.logSuccess (savedMessage url)]) := by
  have hfp : (buildScreenshotConfig url).fullPage = false := by
    simp [buildScreenshotConfig, hc]
  refine ⟨hfp, by simp [buildScreenshotConfig, hc], ?_, ?_⟩
  · unfold runInvokesEngine getScreenshotRun
    cases hsel : url.hideSelector with
    | none =>
      simp only [getScreenshotTryBlock, hfp, Bool.false_eq_true, if_false]
      cases hdt : pb.directThrows <;>
        simp [invokesFullPageEngine]
    | some sels =>
      unfold hideElements
      by_cases hv : sels.all (fun s => s.valid) = true
      · simp only [hv, if_true]
        simp only [getScreenshotTryBlock, hfp, Bool.false_eq_true, if_false]
        cases hdt : pb.directThrows <;>
          simp [invokesFullPageEngine]
      · simp [hv]
  · intro hdt hsel
    unfold getScreenshotRun
    rw [hsel]
    simp only [getScreenshotTryBlock, hfp, Bool.false_eq_true, if_false, hdt]

/-- Witness for C4: the sample descriptor with clip `(10,20,300,400)`
and the full-page flag still on takes the direct path with exactly that
clip. -/
theorem clip_forces_viewport_capture_witness :
    (buildScreenshotConfig urlClip).fullPage = false ∧
    (buildScreenshotConfig urlClip).clip = some ⟨10, 20, 300, 400⟩ ∧
    runInvokesEngine pbOk urlClip = false ∧
    (pbOk.directThrows = false → urlClip.hideSelector = none →
      getScreenshotRun pbOk urlClip =
        Except.ok [JobAction.directScreenshot (buildScreenshotConfig urlClip),
          JobAction.logSuccess (savedMessage urlClip)]) :=
  clip_forces_viewport_capture pbOk urlClip ⟨10, 20, 300, 400⟩ (by decide)

/-- Claim C5 (amended): on the segmented path the segments are
composited top-to-bottom at cumulative vertical offsets at the left
edge, onto a canvas whose width is the viewport width in device pixels
and whose background is fully transparent, and the result is written to
the descriptor's destination path — but it is always encoded as PNG,
regardless of the descriptor's requested output format (the source calls
`.png()` unconditionally). -/
theorem segmented_composite_write (page : PageModel) (url : UrlData)
    (hseg : url.stitchThreshold < page.finalHeight) :
    (fullPageStitched page).width = page.innerWidth * page.dpr ∧
    (fullPageStitched page).background = ⟨255, 255, 255, 0⟩ ∧
    (fullPageStitched page).background.alpha = 0 ∧
    cumulative 0 (fullPageStitched page).composites ∧
    (fullPageStitched page).format = ImageFormat.png ∧
    (buildScreenshotConfig url).path = some url.path ∧
    (getFullPageScreenshotActions page url (buildScreenshotConfig url)).getLast?
        = some (EngineAction.writeFile (some url.path)) := by
  have hpath : (buildScreenshotConfig url).path = some url.path := by
    cases hc : url.clip <;> simp [buildScreenshotConfig, hc]
  refine ⟨rfl, rfl, rfl, ?_, rfl, hpath, ?_⟩
  · exact cumulative_compositeOffsets _ 0
  · unfold getFullPageScreenshotActions
    rw [if_neg (by omega), List.getLast?_concat, hpath]

/-- Witness for C5: the sample page on the segmented path. -/
theorem segmented_composite_write_witness :
    (1600:Nat) < 2500 ∧
    ((fullPageStitched samplePage).width = samplePage.innerWidth * samplePage.dpr ∧
      (fullPageStitched samplePage).background = ⟨255, 255, 255, 0⟩ ∧
      (fullPageStitched samplePage).background.alpha = 0 ∧
      cumulative 0 (fullPageStitched samplePage).composites ∧
      (fullPageStitched samplePage).format = ImageFormat.png ∧
      (buildScreenshotConfig urlStitch).path = some urlStitch.path ∧
      (getFullPageScreenshotActions samplePage urlStitch
          (buildScreenshotConfig urlStitch)).getLast?
        = some (EngineAction.writeFile (some urlStitch.path))) :=
  ⟨by decide, segmented_composite_write samplePage urlStitch (by decide)⟩

/-- Counterexample to C5 as stated: a descriptor requesting JPEG output
takes the segmented path, yet the stitched image is encoded as PNG, not
in the requested format. -/
theorem stitched_format_counterexample :
    urlJpeg.stitchThreshold < samplePage.finalHeight ∧
    urlJpeg.fileType = ImageFormat.jpeg ∧
    ¬ (fullPageStitched samplePage).format = urlJpeg.fileType := by
  decide

/-- Claim C6 (amended): during segmented capture with post-first-scroll
hide-selectors configured, the hide call runs before every segment
capture except the first — once per segment with positive index, hence
`pages - 1` times in total — and never before the first segment's
capture (the trace starts with the index-0 capture).  It is not limited
to a single invocation. -/
theorem hide_stitch_on_every_later_segment (page : PageModel) (url : UrlData)
    (sels : List Selector) (config : ScreenshotOptions) (k : Nat)
    (hsel : url.hideStitchSelector = some sels)
    (hseg : url.stitchThreshold < page.finalHeight)
    (hk0 : 0 < k) (hk : k < (finalSizeInfo page).pages) :
    countHideStitch (getFullPageScreenshotActions page url config)
        = (finalSizeInfo page).pages - 1 ∧
    (getFullPageScreenshotActions page url config).head?
        = some (EngineAction.segmentCapture 0) ∧
    EngineAction.hideStitch k sels ∈ getFullPageScreenshotActions page url config := by
  have hp : 0 < (finalSizeInfo page).pages := Nat.lt_of_le_of_lt (Nat.zero_le k) hk
  unfold getFullPageScreenshotActions
  rw [if_neg (by omega)]
  refine ⟨?_, ?_, ?_⟩
  · rw [countHideStitch_append, countHideStitch_segmentLoop url sels hsel]
    rfl
  · exact head?_append_some (segmentLoop_head? url _ hp)
  · exact List.mem_append_left _ (hideStitch_mem_segmentLoop url sels hsel _ k hk0 hk)

/-- Witness for C6: the sample page with threshold 1600 yields 3
segments; the hide call runs twice (before segments 1 and 2, here shown
for index 2), never before segment 0. -/
theorem hide_stitch_on_every_later_segment_witness :
    (urlHideStitch.hideStitchSelector = some [⟨true, 1⟩]) ∧
    ((1600:Nat) < 2500) ∧
    (countHideStitch (getFullPageScreenshotActions samplePage urlHideStitch
        (buildScreenshotConfig urlHideStitch))
      = (finalSizeInfo samplePage).pages - 1 ∧
    (getFullPageScreenshotActions samplePage urlHideStitch
        (buildScreenshotConfig urlHideStitch)).head?
      = some (EngineAction.segmentCapture 0) ∧
    EngineAction.hideStitch 2 [⟨true, 1⟩] ∈ getFullPageScreenshotActions samplePage
        urlHideStitch (buildScreenshotConfig urlHideStitch)) :=
  ⟨by decide, by decide,
    hide_stitch_on_every_later_segment samplePage urlHideStitch [⟨true, 1⟩]
      (buildScreenshotConfig urlHideStitch) 2 (by decide) (by decide)
      (by decide) (by decide)⟩

/-- Counterexample to C6 as stated: with 3 segments the hide call runs
twice (at segment indices 1 and 2), not "only once". -/
theorem hide_stitch_once_counterexample :
    urlHideStitch.stitchThreshold < samplePage.finalHeight ∧
    (finalSizeInfo samplePage).pages = 3 ∧
    countHideStitch (getFullPageScreenshotActions samplePage urlHideStitch
        (buildScreenshotConfig urlHideStitch)) = 2 ∧
    ¬ countHideStitch (getFullPageScreenshotActions samplePage urlHideStitch
        (buildScreenshotConfig urlHideStitch)) = 1 := by
  decide

/-- Claim C7 (amended): an error raised during stabilization, segment
capture or stitching is caught inside `getFullPageScreenshot` and logged
with a fixed message that does not mention the descriptor's URL; the
function returns normally, so the Worker is not crashed and other queued
jobs are unaffected — but `getScreenshot` then logs the job as a success
("Saved <path>"), not as a failure. -/
theorem engine_error_swallowed (pb : PageBehavior) (url : UrlData)
    (hthrow : pb.engineThrows = true)
    (hfull : (buildScreenshotConfig url).fullPage = true)
    (hnone : url.hideSelector = none) :
    getScreenshotRun pb url =
      Except.ok [JobAction.fullPageEngine true [],
        JobAction.logError fullPageErrorMessage,
        JobAction.logSuccess (savedMessage url)] ∧
    reportsSuccess [JobAction.fullPageEngine true [],
        JobAction.logError fullPageErrorMessage,
        JobAction.logSuccess (savedMessage url)] = true := by
  refine ⟨?_, rfl⟩
  unfold getScreenshotRun
  rw [hnone]
  unfold getScreenshotTryBlock
  simp only [hfull, if_true]
  unfold getFullPageScreenshotRun
  rw [hthrow]
  rfl

/-- Witness for C7: the sample full-page descriptor with a throwing
engine. -/
theorem engine_error_swallowed_witness :
    (pbEngineError.engineThrows = true) ∧
    ((buildScreenshotConfig sampleUrl).fullPage = true) ∧
    (sampleUrl.hideSelector = none) ∧
    (getScreenshotRun pbEngineError sampleUrl =
      Except.ok [JobAction.fullPageEngine true [],
        JobAction.logError fullPageErrorMessage,
        JobAction.logSuccess (savedMessage sampleUrl)] ∧
    reportsSuccess [JobAction.fullPageEngine true [],
        JobAction.logError fullPageErrorMessage,
        JobAction.logSuccess (savedMessage sampleUrl)] = true) :=
  ⟨rfl, by decide, rfl,
    engine_error_swallowed pbEngineError sampleUrl rfl (by decide) rfl⟩

/-- Counterexample to C7 as stated: with the engine throwing, the job
trace ends in `logSuccess` — the job surfaces as a success, not a
failure — and the logged error message does not contain the offending
descriptor's URL. -/
theorem engine_error_reported_success_counterexample :
    getScreenshotRun pbEngineError sampleUrl =
      Except.ok [JobAction.fullPageEngine true [],
        JobAction.logError fullPageErrorMessage,
        JobAction.logSuccess (savedMessage sampleUrl)] ∧
    reportsSuccess [JobAction.fullPageEngine true [],
        JobAction.logError fullPageErrorMessage,
        JobAction.logSuccess (savedMessage sampleUrl)] = true ∧
    ¬ (sampleUrl.url.data <:+: fullPageErrorMessage.data) :=
  ⟨rfl, rfl, by decide⟩

/-- Claim C8 (amended): a hide selector that matches nothing causes no
error at all (the job proceeds into the try block), but an error thrown
while hiding — e.g. an invalid selector — is NOT caught: the
`hideElements` call sits outside `getScreenshot`'s try block, so the
exception escapes `getScreenshot` and that job's capture never runs. -/
theorem hide_selector_error_uncaught (pb : PageBehavior) (url : UrlData)
    (sels : List Selector) (hsel : url.hideSelector = some sels) :
    (sels.all (fun s => s.valid) = true →
      getScreenshotRun pb url =
        Except.ok (JobAction.hideSelectors sels :: getScreenshotTryBlock pb url)) ∧
    (sels.all (fun s => s.valid) = false →
      getScreenshotRun pb url = Except.error ()) := by
  constructor <;> intro hv <;>
    simp [getScreenshotRun, hsel, hideElements, hv]

/-- Witness for C8: one valid selector matching zero elements lets the
job proceed; the same statement's second branch covers the invalid
case. -/
theorem hide_selector_error_uncaught_witness :
    (urlEmptySelector.hideSelector = some [⟨true, 0⟩]) ∧
    (([(⟨true, 0⟩ : Selector)].all (fun s => s.valid) = true →
      getScreenshotRun pbOk urlEmptySelector =
        Except.ok (JobAction.hideSelectors [⟨true, 0⟩]
          :: getScreenshotTryBlock pbOk urlEmptySelector)) ∧
    ([(⟨true, 0⟩ : Selector)].all (fun s => s.valid) = false →
      getScreenshotRun pbOk urlEmptySelector = Except.error ())) :=
  ⟨rfl, hide_selector_error_uncaught pbOk urlEmptySelector [⟨true, 0⟩] rfl⟩

/-- Counterexample to C8 as stated: an invalid hide selector makes the
job throw out of `getScreenshot` — the error is neither logged nor
ignored there, and the capture does not proceed. -/
theorem invalid_selector_aborts_counterexample :
    urlBadSelector.hideSelector = some [⟨false, 0⟩] ∧
    getScreenshotRun pbOk urlBadSelector = Except.error () :=
  ⟨rfl, rfl⟩

/-- Claim C9 (amended): `Screenshot.init` launches the pool with
`maxConcurrency` hard-coded to 10 — the caller cannot configure it — and
the pool (modelled from the spec; implemented by the external
puppeteer-cluster library) never has more than `maxConcurrency` jobs
running simultaneously in any reachable state. -/
theorem pool_concurrency_bound (o : InitOptions) (s : PoolState)
    (h : Relation.ReflTransGen PoolStep
      (initialPool (clusterLaunchOptions o).maxConcurrency) s) :
    (clusterLaunchOptions o).maxConcurrency = 10 ∧
    s.maxConcurrency = 10 ∧ s.running ≤ 10 := by
  refine ⟨rfl, ?_⟩
  induction h with
  | refl => exact ⟨rfl, by simp [initialPool, clusterLaunchOptions]⟩
  | tail hsteps hstep ih =>
    rcases hstep with step | step | step
    all_goals
      obtain ⟨ih1, ih2⟩ := ih
      constructor <;> simp <;> omega

/-- Witness for C9: after launching, submitting one job and assigning
it, exactly one job runs — within the bound of 10. -/
theorem pool_concurrency_bound_witness :
    (clusterLaunchOptions { blockAdsAndCookieNotices := false }).maxConcurrency = 10 ∧
    ({ maxConcurrency := 10, queued := 0, running := 1, done := 0 } : PoolState).maxConcurrency = 10 ∧
    ({ maxConcurrency := 10, queued := 0, running := 1, done := 0 } : PoolState).running ≤ 10 :=
  pool_concurrency_bound { blockAdsAndCookieNotices := false }
    { maxConcurrency := 10, queued := 0, running := 1, done := 0 }
    (Relation.ReflTransGen.tail
      (Relation.ReflTransGen.tail Relation.ReflTransGen.refl
        (PoolStep.submit _))
      (PoolStep.assign _ (by decide) (by decide)))

/-- Counterexample to C9 as stated: the two possible caller option
values (the parsed options expose no concurrency field; `init` only
reads `blockAdsAndCookieNotices`) both produce `maxConcurrency = 10` —
the maximum concurrency is not configurable by the caller. -/
theorem concurrency_not_configurable_counterexample :
    (clusterLaunchOptions { blockAdsAndCookieNotices := true }).maxConcurrency = 10 ∧
    (clusterLaunchOptions { blockAdsAndCookieNotices := false }).maxConcurrency = 10 := by
  decide

end PageShots
